import Mathlib

/-!
Verification development for the RewindOS measuring-cultural-safety repository.

Pipeline A (`src/backlash/rewindos_reddit_no_backlash_tracker.py`): a Reddit
mention tracker whose core is an HTTP fetcher with bounded retries and
exponential backoff (`request_json`), a cursor paginator with a time-window
filter (`fetch_posts_for_query` / `within_range`), a dedup-and-sort
aggregation step (`main`, line 378) and a weekly bucketing step
(`weekly_aggregate`).

Pipeline B (`src/decay/rewindos_google_trends_decay.py`): a Google Trends
decay analysis whose relevant function is `compute_half_life`.

The definitions below are a shallow embedding of these functions.  Timestamps
and epoch seconds are modelled as rationals (`pd.Timestamp` comparison is
exact), Python `int()` truncation is modelled by `pyInt`, and the network is
modelled as an explicit function from attempt number (for the fetcher) or
cursor (for the paginator) to a response.
-/

/-- Python `int()` applied to a float: truncation toward zero.
Used by `within_range`, which does `pd.Timestamp(int(created_utc), unit="s")`. -/
def pyInt (q : ℚ) : ℤ := if 0 ≤ q then ⌊q⌋ else ⌈q⌉

/-- `within_range` (tracker script, lines 131-133): converts `created_utc`
to a whole-second timestamp via `int()` and checks it against the window
bounds inclusively. -/
def within_range (created_utc : ℚ) (start_ts end_ts : ℚ) : Bool :=
  decide (start_ts ≤ (pyInt created_utc : ℚ) ∧ (pyInt created_utc : ℚ) ≤ end_ts)

/-- Retry ceiling `RETRIES` (line 81). -/
def RETRIES : Nat := 5

/-- Backoff base `BACKOFF_BASE` (line 82).  `2.0` is exactly representable,
so powers `2.0 ** k` used by the script are exact and a rational model is
faithful. -/
def BACKOFF_BASE : ℚ := 2

/-- The retryable status set of line 166: `(429, 500, 502, 503, 504)`. -/
def retryableStatuses : List Nat := [429, 500, 502, 503, 504]

/-- Outcome of one attempt of `requests.get` plus body parsing, as observed
by `request_json`: either an HTTP response with a status code and a flag for
whether `r.json()` succeeds, or a transport-level exception. -/
inductive AttemptOutcome where
  | response (status : Nat) (parseOk : Bool)
  | exception
  deriving DecidableEq, Repr

/-- One diagnostic row appended to the `_errors` list by `record_error`,
identified by its stage string. -/
inductive Diag where
  | http_retryable (status : Nat)
  | http_non_200 (status : Nat)
  | json_parse_failed
  | request_exception
  | request_failed_all_retries
  deriving DecidableEq, Repr

/-- The observable behaviour of one `request_json` call: the returned value
(`some ()` abstracts a parsed payload, `none` is Python `None`), the number
of attempts made, the list of sleep durations in order, the diagnostics
recorded in order, and the number of raw-body files written. -/
structure FetchTrace where
  result : Option Unit
  attempts : Nat
  sleeps : List ℚ
  diags : List Diag
  rawFiles : Nat
  deriving DecidableEq, Repr

/-- The `for attempt in range(1, RETRIES + 1)` loop body of `request_json`
(lines 160-196), with `fuel` the number of loop iterations remaining and
`attempt` the current attempt number.  When the loop exhausts, the final
`request_failed_all_retries` diagnostic is recorded and `None` returned. -/
def requestAttempts (responses : Nat → AttemptOutcome) : Nat → Nat → FetchTrace
  | 0, _ => ⟨none, 0, [], [.request_failed_all_retries], 0⟩
  | fuel + 1, attempt =>
    match responses attempt with
    | .response status parseOk =>
      if status ∈ retryableStatuses then
        -- retryable: record diagnostic, sleep BACKOFF_BASE^(attempt-1), continue
        let rest := requestAttempts responses fuel (attempt + 1)
        ⟨rest.result, rest.attempts + 1, BACKOFF_BASE ^ (attempt - 1) :: rest.sleeps,
          .http_retryable status :: rest.diags, rest.rawFiles⟩
      else if status ≠ 200 then
        -- non-200 terminal: persist raw body, record diagnostic, return None
        ⟨none, 1, [], [.http_non_200 status], 1⟩
      else if parseOk then
        ⟨some (), 1, [], [], 0⟩
      else
        -- 200 but r.json() raised: persist raw body, record diagnostic, return None
        ⟨none, 1, [], [.json_parse_failed], 1⟩
    | .exception =>
      -- transport exception: record diagnostic, sleep with same backoff, continue
      let rest := requestAttempts responses fuel (attempt + 1)
      ⟨rest.result, rest.attempts + 1, BACKOFF_BASE ^ (attempt - 1) :: rest.sleeps,
        .request_exception :: rest.diags, rest.rawFiles⟩

/-- `request_json` (lines 156-196), abstracted over the per-attempt network
outcome. -/
def request_json (responses : Nat → AttemptOutcome) : FetchTrace :=
  requestAttempts responses RETRIES 1

example : request_json (fun _ => .response 200 true) =
    ⟨some (), 1, [], [], 0⟩ := by decide

example : request_json (fun _ => .response 429 true) =
    ⟨none, 5, [1, 2, 4, 8, 16],
      [.http_retryable 429, .http_retryable 429, .http_retryable 429,
       .http_retryable 429, .http_retryable 429, .request_failed_all_retries], 0⟩ := by
  decide

example : request_json (fun _ => .response 404 true) =
    ⟨none, 1, [], [.http_non_200 404], 1⟩ := by decide

/-- One element of the `children` list of a search page: the `"data"` dict of
a child, restricted to the keys read by the extractor (lines 224-246).
`created_utc` is `none` when the key is missing. -/
structure Child where
  id : String
  name : String
  created_utc : Option ℚ
  subreddit : String
  title : String
  selftext : String
  score : ℤ
  num_comments : ℤ
  permalink : String
  deriving DecidableEq, Repr

/-- The post dict appended to `posts` (lines 233-246). -/
structure PostRecord where
  id : String
  fullname : String
  created_utc : ℚ
  created_dt : ℤ
  subreddit : String
  title : String
  selftext : String
  score : ℤ
  num_comments : ℤ
  permalink : String
  query : String
  scope_subreddit : String
  deriving DecidableEq, Repr

/-- The `"data"` object of a search response: the item list and the optional
next-page cursor (`after`). -/
structure PageData where
  children : List Child
  after : Option String
  deriving DecidableEq, Repr

/-- The per-child extraction loop of `fetch_posts_for_query`
(lines 222-246): skip a child whose `created_utc` is missing, skip a child
outside the window, otherwise build a `PostRecord`.
`created_dt` is `pd.Timestamp(int(created_utc), unit="s")`, i.e. the
truncated whole-second timestamp. -/
def extractChildren (query : String) (subreddit : Option String)
    (start_ts end_ts : ℚ) (children : List Child) : List PostRecord :=
  children.filterMap fun c =>
    match c.created_utc with
    | none => none
    | some cu =>
      if within_range cu start_ts end_ts then
        some { id := c.id, fullname := c.name, created_utc := cu,
               created_dt := pyInt cu, subreddit := c.subreddit,
               title := c.title, selftext := c.selftext, score := c.score,
               num_comments := c.num_comments,
               permalink := "https://www.reddit.com" ++ c.permalink,
               query := query, scope_subreddit := subreddit.getD "" }
      else none

/-- The `while pages < max_pages` loop of `fetch_posts_for_query`
(lines 207-258).  The network is modelled as `endpoint : Option String →
Option PageData`, mapping the current cursor to the result of
`request_json` on the built URL (`none` covers both a failed fetch and a
payload with no `"data"` key, the `if not data or "data" not in data`
test).  `fuel` is `max_pages - pages`.  Returns the collected posts and
the number of requests issued. -/
def fetchLoop (endpoint : Option String → Option PageData) (query : String)
    (subreddit : Option String) (start_ts end_ts : ℚ) :
    Nat → Option String → List PostRecord × Nat
  | 0, _ => ([], 0)
  | fuel + 1, cursor =>
    match endpoint cursor with
    | none => ([], 1)
    | some page =>
      if page.children.isEmpty then ([], 1)
      else
        let recs := extractChildren query subreddit start_ts end_ts page.children
        match page.after with
        | none => (recs, 1)
        | some nxt =>
          let rest := fetchLoop endpoint query subreddit start_ts end_ts fuel (some nxt)
          (recs ++ rest.1, rest.2 + 1)

/-- `fetch_posts_for_query` (lines 198-258). -/
def fetch_posts_for_query (endpoint : Option String → Option PageData)
    (query : String) (subreddit : Option String) (start_ts end_ts : ℚ)
    (max_pages : Nat := 25) : List PostRecord × Nat :=
  fetchLoop endpoint query subreddit start_ts end_ts max_pages none

example :
    fetch_posts_for_query (fun _ => some ⟨[], some "t"⟩) "q" none 0 100 25 =
      ([], 1) := by decide

example :
    fetch_posts_for_query (fun _ => none) "q" none 0 100 25 = ([], 1) := by
  decide

/-- Ordering of records by `created_dt`, the sort key of
`df.sort_values("created_dt")` (line 378). -/
def createdLe (a b : PostRecord) : Prop := a.created_dt ≤ b.created_dt

instance : DecidableRel createdLe := fun a b =>
  inferInstanceAs (Decidable (a.created_dt ≤ b.created_dt))

instance : IsTotal PostRecord createdLe := ⟨fun a b => Int.le_total a.created_dt b.created_dt⟩

instance : IsTrans PostRecord createdLe := ⟨fun _ _ _ h1 h2 => le_trans h1 h2⟩

/-- `drop_duplicates(subset=["id"])` with pandas' default `keep="first"`:
keep the first record seen for each identifier.  `seen` is the set of
identifiers already kept. -/
def dropDupsById (seen : List String) : List PostRecord → List PostRecord
  | [] => []
  | r :: rest =>
    if r.id ∈ seen then dropDupsById seen rest
    else r :: dropDupsById (r.id :: seen) rest

/-- The aggregation step of `main`, line 378:
`df = df.sort_values("created_dt").drop_duplicates(subset=["id"])`,
with one fixed admissible sort plugged in.  pandas `sort_values` defaults
to `kind='quicksort'`, which is unstable: the only contract is that the
output is some permutation of the input ascending on the key, and rows
with tied `created_dt` may come out in any order.  `insertionSort` here is
one such admissible outcome; properties that hold for this fixed choice
but not for every admissible outcome (in particular the exact row order
among ties) must instead be proved against `IsSortValuesOutput` below,
which quantifies over all admissible sort outputs. -/
def aggregateStep (l : List PostRecord) : List PostRecord :=
  dropDupsById [] (List.insertionSort createdLe l)

/-- The contract of pandas `sort_values("created_dt", kind='quicksort')`
(the default on line 378): `out` is an admissible result of sorting `inp`
iff it is a permutation of `inp` that is ascending on `created_dt`.
Stability — preserving the relative order of rows with tied keys — is NOT
part of the contract. -/
def IsSortValuesOutput (inp out : List PostRecord) : Prop :=
  List.Perm out inp ∧ List.Pairwise createdLe out

/-- The aggregation step of `main`, line 378, applied to an arbitrary
admissible result `out` of the unstable sort: the subsequent
`drop_duplicates(subset=["id"])` keeps the first occurrence per
identifier of whatever row order the sort produced. -/
def aggregateStepWith (out : List PostRecord) : List PostRecord :=
  dropDupsById [] out

/-- Calendar week of a whole-second UTC timestamp, per pandas
`to_period("W").start_time`: the preceding (or equal) Monday 00:00 UTC,
returned in epoch seconds.  Day 0 (1970-01-01) is a Thursday, so the
Monday-based weekday of day `d` is `(d + 3) % 7`. -/
def weekOf (t : ℤ) : ℤ :=
  let d := Int.fdiv t 86400
  (d - (d + 3).emod 7) * 86400

/-- One row of the weekly aggregate table (lines 269-273):
`mentions=("id", "nunique")`, `score_sum=("score", "sum")`,
`comments_sum=("num_comments", "sum")`. -/
structure WeeklyRow where
  week : ℤ
  mentions : Nat
  score_sum : ℤ
  comments_sum : ℤ
  deriving DecidableEq, Repr

/-- `weekly_aggregate` (lines 263-274): empty input yields an empty table;
otherwise group by calendar week of `created_dt`, count distinct ids and
sum the two engagement columns per group, and sort rows by week
(`sort_values("week")`). -/
def weekly_aggregate (l : List PostRecord) : List WeeklyRow :=
  if l.isEmpty then []
  else
    let weeks := (l.map fun r => weekOf r.created_dt).dedup
    let sortedWeeks := List.insertionSort (· ≤ ·) weeks
    sortedWeeks.map fun w =>
      let grp := l.filter fun r => weekOf r.created_dt = w
      { week := w,
        mentions := ((grp.map PostRecord.id).dedup).length,
        score_sum := (grp.map PostRecord.score).sum,
        comments_sum := (grp.map PostRecord.num_comments).sum }

/-- The observable outcome of the tail of `main` (lines 369-402): which
record set is written to the posts CSV, which table is written to the
weekly CSV, which diagnostics are flushed, and that the run completed. -/
structure RunResult where
  postsCsv : List PostRecord
  weeklyCsv : List WeeklyRow
  flushedDiags : List Diag
  completed : Bool
  deriving Repr

/-- The tail of `main` after all posts are collected (lines 369-402):
if no posts were collected, flush diagnostics and write empty outputs;
otherwise dedup-sort, write posts, aggregate weekly, write it, and flush
diagnostics.  Every path completes. -/
def runMainTail (allPosts : List PostRecord) (errors : List Diag) : RunResult :=
  if allPosts.isEmpty then
    { postsCsv := [], weeklyCsv := [], flushedDiags := errors, completed := true }
  else
    let df := aggregateStep allPosts
    { postsCsv := df, weeklyCsv := weekly_aggregate df,
      flushedDiags := errors, completed := true }

/-- One row of the per-term trend series handed to `compute_half_life`:
a date (modelled in whole days, the resolution of the weekly trend data)
and the smoothed interest value. -/
structure TrendPoint where
  date : ℤ
  value : ℚ
  deriving DecidableEq, Repr

/-- `df[col].idxmax()` followed by the two `df.loc[peak_idx, ...]` reads:
the first row attaining the maximum value. -/
def peakPoint : TrendPoint → List TrendPoint → TrendPoint
  | best, [] => best
  | best, p :: rest => peakPoint (if best.value < p.value then p else best) rest

/-- Python `round()` on an exact rational: round half to even. -/
def pyRound (q : ℚ) : ℤ :=
  let f := ⌊q⌋
  let frac := q - f
  if frac < 1 / 2 then f
  else if 1 / 2 < frac then f + 1
  else if f % 2 = 0 then f else f + 1

/-- Python `round(x, 2)`. -/
def pyRound2 (q : ℚ) : ℚ := (pyRound (q * 100) : ℚ) / 100

/-- `compute_half_life` (decay script, lines 71-84): locate the first peak
row, keep the rows dated at or after the peak, and among those take the
first whose value is at most half the peak value; absent such a row return
`None`, otherwise the day gap divided by 7, rounded to two decimals.
(pandas raises on an empty column; the claims only concern nonempty
series, for which the `[]` branch is never reached.) -/
def compute_half_life : List TrendPoint → Option ℚ
  | [] => none
  | p :: rest =>
    let peak := peakPoint p rest
    let half_val := peak.value / 2
    let after_peak := (p :: rest).filter fun q => peak.date ≤ q.date
    match after_peak.filter fun q => q.value ≤ half_val with
    | [] => none
    | q :: _ => some (pyRound2 (((q.date - peak.date : ℤ) : ℚ) / 7))

example :
    compute_half_life
      [⟨0, 100⟩, ⟨7, 875/10⟩, ⟨14, 75⟩, ⟨21, 625/10⟩, ⟨28, 50⟩] = some 4 := by
  norm_num [compute_half_life, peakPoint, pyRound2, pyRound, List.filter]

example : compute_half_life [⟨0, 100⟩, ⟨7, 80⟩, ⟨14, 60⟩] = none := by
  norm_num [compute_half_life, peakPoint, pyRound2, pyRound, List.filter]

example : compute_half_life [⟨0, 0⟩, ⟨7, 0⟩, ⟨14, 0⟩] = some 0 := by
  norm_num [compute_half_life, peakPoint, pyRound2, pyRound, List.filter]

/-- An attempt outcome that takes the retryable branch of `request_json`:
an HTTP response whose status is in the retryable set. -/
def isRetryableResp (o : AttemptOutcome) : Prop :=
  ∃ s b, o = .response s b ∧ s ∈ retryableStatuses

/-- C1: if every attempt's response has a status in the retryable set
{429, 500, 502, 503, 504}, then `request_json` makes exactly `RETRIES = 5`
attempts and returns `None`, the sleeps performed are
`BACKOFF_BASE ^ 0, …, BACKOFF_BASE ^ 4` in order (so the sleep between
attempt k and attempt k+1 is `BACKOFF_BASE ^ (k-1)`, with `BACKOFF_BASE =
2`), and the last diagnostic recorded is `request_failed_all_retries`. -/
theorem request_json_retryable_exhausts (responses : Nat → AttemptOutcome)
    (h : ∀ k, 1 ≤ k → k ≤ RETRIES → isRetryableResp (responses k)) :
    RETRIES = 5 ∧ BACKOFF_BASE = 2 ∧
    (request_json responses).result = none ∧
    (request_json responses).attempts = RETRIES ∧
    (request_json responses).sleeps =
      (List.range RETRIES).map (fun i => BACKOFF_BASE ^ i) ∧
    (request_json responses).diags.getLast? = some .request_failed_all_retries := by
  obtain ⟨s1, b1, e1, m1⟩ := h 1 (by norm_num) (by norm_num [RETRIES])
  obtain ⟨s2, b2, e2, m2⟩ := h 2 (by norm_num) (by norm_num [RETRIES])
  obtain ⟨s3, b3, e3, m3⟩ := h 3 (by norm_num) (by norm_num [RETRIES])
  obtain ⟨s4, b4, e4, m4⟩ := h 4 (by norm_num) (by norm_num [RETRIES])
  obtain ⟨s5, b5, e5, m5⟩ := h 5 (by norm_num) (by norm_num [RETRIES])
  refine ⟨rfl, rfl, ?_⟩
  simp [request_json, RETRIES, requestAttempts, e1, e2, e3, e4, e5,
    m1, m2, m3, m4, m5, List.range_succ]

/-- Witness for C1 at a constant all-429 response stream. -/
theorem request_json_retryable_exhausts_witness :
    RETRIES = 5 ∧ BACKOFF_BASE = 2 ∧
    (request_json (fun _ => .response 429 true)).result = none ∧
    (request_json (fun _ => .response 429 true)).attempts = RETRIES ∧
    (request_json (fun _ => .response 429 true)).sleeps =
      (List.range RETRIES).map (fun i => BACKOFF_BASE ^ i) ∧
    (request_json (fun _ => .response 429 true)).diags.getLast? =
      some .request_failed_all_retries :=
  request_json_retryable_exhausts (fun _ => .response 429 true)
    (fun _ _ _ => ⟨429, true, rfl, by decide⟩)

/-- C2: a response whose status is neither 200 nor retryable makes
`request_json` return `None` after exactly one attempt, with no sleep, one
raw-body file written and a `http_non_200` diagnostic; a 200 response whose
body fails to parse is treated the same way with a `json_parse_failed`
diagnostic. -/
theorem request_json_terminal_single_attempt (responses : Nat → AttemptOutcome)
    (s : Nat) (pOk : Bool) (h : responses 1 = .response s pOk)
    (hnr : s ∉ retryableStatuses) :
    (s ≠ 200 →
      request_json responses = ⟨none, 1, [], [.http_non_200 s], 1⟩) ∧
    (s = 200 → pOk = false →
      request_json responses = ⟨none, 1, [], [.json_parse_failed], 1⟩) := by
  constructor
  · intro hs
    simp [request_json, RETRIES, requestAttempts, h, hnr, hs]
  · intro hs hb
    subst hs hb
    simp [request_json, RETRIES, requestAttempts, h, hnr]

/-- Witness for C2: a 404 response and a 200 response with an unparsable
body, each resolved in one attempt. -/
theorem request_json_terminal_single_attempt_witness :
    request_json (fun _ => .response 404 true) =
      ⟨none, 1, [], [.http_non_200 404], 1⟩ ∧
    request_json (fun _ => .response 200 false) =
      ⟨none, 1, [], [.json_parse_failed], 1⟩ :=
  ⟨(request_json_terminal_single_attempt (fun _ => .response 404 true) 404 true
      rfl (by decide)).1 (by decide),
   (request_json_terminal_single_attempt (fun _ => .response 200 false) 200 false
      rfl (by decide)).2 rfl rfl⟩

/-- The paginator never issues more requests than the page ceiling allows. -/
theorem fetchLoop_requests_le (endpoint : Option String → Option PageData)
    (query : String) (subreddit : Option String) (start_ts end_ts : ℚ) :
    ∀ (fuel : Nat) (cursor : Option String),
      (fetchLoop endpoint query subreddit start_ts end_ts fuel cursor).2 ≤ fuel
  | 0, _ => Nat.le_refl 0
  | fuel + 1, cursor => by
    simp only [fetchLoop]
    cases endpoint cursor with
    | none => exact Nat.le_add_left 1 fuel
    | some page =>
      by_cases hc : page.children.isEmpty
      · simp [hc]
      · cases hafter : page.after with
        | none => simp [hc, hafter]
        | some nxt =>
          simp only [hc, hafter, if_neg, Bool.false_eq_true, not_false_eq_true]
          simpa using Nat.add_le_add_right
            (fetchLoop_requests_le endpoint query subreddit start_ts end_ts fuel (some nxt)) 1

/-- C7: stop conditions of the paginator.  With a nonzero page ceiling:
a failed first fetch stops after one request with no records; an empty
item list on the first page stops after exactly one request with zero
records; a nonempty first page with no cursor stops after one request
with that page's in-window records; and in all cases the number of
requests never exceeds the page ceiling. -/
theorem fetch_posts_for_query_stops (endpoint : Option String → Option PageData)
    (query : String) (subreddit : Option String) (start_ts end_ts : ℚ)
    (max_pages : Nat) (hmp : max_pages ≠ 0) :
    (endpoint none = none →
      fetch_posts_for_query endpoint query subreddit start_ts end_ts max_pages = ([], 1)) ∧
    (∀ after, endpoint none = some ⟨[], after⟩ →
      fetch_posts_for_query endpoint query subreddit start_ts end_ts max_pages = ([], 1)) ∧
    (∀ children, children ≠ [] → endpoint none = some ⟨children, none⟩ →
      fetch_posts_for_query endpoint query subreddit start_ts end_ts max_pages =
        (extractChildren query subreddit start_ts end_ts children, 1)) ∧
    (fetch_posts_for_query endpoint query subreddit start_ts end_ts max_pages).2 ≤ max_pages := by
  obtain ⟨fuel, rfl⟩ : ∃ n, max_pages = n + 1 :=
    ⟨max_pages - 1, (Nat.succ_pred_eq_of_pos (Nat.pos_of_ne_zero hmp)).symm⟩
  refine ⟨?_, ?_, ?_, fetchLoop_requests_le _ _ _ _ _ _ _⟩
  · intro h
    simp [fetch_posts_for_query, fetchLoop, h]
  · intro after h
    simp [fetch_posts_for_query, fetchLoop, h]
  · intro children hne h
    simp [fetch_posts_for_query, fetchLoop, h, hne]

/-- Witness for C7: an endpoint whose first page has an empty item list
yields zero records from exactly one request. -/
theorem fetch_posts_for_query_stops_witness :
    fetch_posts_for_query (fun _ => some ⟨[], some "t"⟩) "q" none 0 100 20 =
      ([], 1) :=
  (fetch_posts_for_query_stops (fun _ => some ⟨[], some "t"⟩) "q" none 0 100 20
    (by decide)).2.1 (some "t") rfl

/-- `dropDupsById` returns a sublist of its input. -/
theorem dropDupsById_sublist (seen : List String) :
    ∀ l : List PostRecord, (dropDupsById seen l).Sublist l := by
  intro l
  induction l generalizing seen with
  | nil => exact List.nil_sublist _
  | cons r rest ih =>
    simp only [dropDupsById]
    by_cases hr : r.id ∈ seen
    · rw [if_pos hr]
      exact (ih seen).cons r
    · rw [if_neg hr]
      exact (ih (r.id :: seen)).cons₂ r

/-- Per-identifier count after `dropDupsById`: zero for an identifier
already seen, one for an identifier present in the input, zero otherwise. -/
theorem dropDupsById_countP (i : String) :
    ∀ (l : List PostRecord) (seen : List String),
      (dropDupsById seen l).countP (fun r => r.id = i) =
        if i ∈ seen then 0 else if i ∈ l.map PostRecord.id then 1 else 0 := by
  intro l
  induction l with
  | nil => intro seen; simp [dropDupsById]
  | cons r rest ih =>
    intro seen
    simp only [dropDupsById]
    by_cases hr : r.id ∈ seen
    · rw [if_pos hr, ih seen]
      by_cases hi : i ∈ seen
      · simp [hi]
      · have hne : r.id ≠ i := fun h => hi (h ▸ hr)
        simp [hi, Ne.symm hne]
    · rw [if_neg hr]
      by_cases hri : r.id = i
      · have hi : i ∉ seen := fun h => hr (hri ▸ h)
        have hmem : i ∈ r.id :: seen := by simp [hri]
        rw [List.countP_cons, ih (r.id :: seen), if_pos hmem, if_neg hi]
        have hmap : i ∈ List.map PostRecord.id (r :: rest) := by simp [← hri]
        rw [if_pos hmap]
        simp [hri]
      · rw [List.countP_cons, ih (r.id :: seen)]
        simp [hri, Ne.symm hri]

/-- C4: the aggregation step of `main` (sort by `created_dt`, then
`drop_duplicates` on `id`) keeps exactly one record per identifier present
in the input, none for an absent identifier, and its output is sorted
ascending by creation time. -/
theorem aggregateStep_one_per_id_sorted (l : List PostRecord) :
    (∀ i : String,
      (aggregateStep l).countP (fun r => r.id = i) =
        if i ∈ l.map PostRecord.id then 1 else 0) ∧
    (aggregateStep l).Pairwise createdLe := by
  constructor
  · intro i
    rw [aggregateStep, dropDupsById_countP i _ []]
    have hperm : List.Perm ((List.insertionSort createdLe l).map PostRecord.id)
        (l.map PostRecord.id) := (List.perm_insertionSort createdLe l).map _
    simp [hperm.mem_iff]
  · exact List.Pairwise.sublist (dropDupsById_sublist [] _)
      (List.sorted_insertionSort createdLe l)

/-- `dropDupsById` is the identity on a record list whose identifiers are
pairwise distinct and disjoint from `seen`. -/
theorem dropDupsById_eq_self :
    ∀ (l : List PostRecord) (seen : List String),
      (∀ r ∈ l, r.id ∉ seen) → (l.map PostRecord.id).Nodup →
      dropDupsById seen l = l := by
  intro l
  induction l with
  | nil => intro seen _ _; rfl
  | cons r rest ih =>
    intro seen hdisj hnodup
    have hr : r.id ∉ seen := hdisj r (by simp)
    simp only [dropDupsById, if_neg hr]
    rw [List.map_cons, List.nodup_cons] at hnodup
    have : dropDupsById (r.id :: seen) rest = rest := by
      refine ih (r.id :: seen) ?_ hnodup.2
      intro x hx
      simp only [List.mem_cons]
      rintro (h | h)
      · exact hnodup.1 (h ▸ List.mem_map_of_mem PostRecord.id hx)
      · exact hdisj x (List.mem_cons_of_mem r hx) h
    rw [this]

/-- `weekly_aggregate` is invariant under permutation of its input: the
emitted week keys come out sorted and deduplicated either way, and each
row's distinct-id count and engagement sums are order-free. -/
theorem weekly_aggregate_perm (l₁ l₂ : List PostRecord)
    (h : List.Perm l₁ l₂) :
    weekly_aggregate l₁ = weekly_aggregate l₂ := by
  by_cases hne : l₂ = []
  · subst hne
    have h1 : l₁ = [] := List.length_eq_zero.mp (by simpa using h.length_eq)
    subst h1
    rfl
  · have he₂ : ¬ l₂.isEmpty := fun hc => hne (List.isEmpty_iff.mp hc)
    have hne₁ : l₁ ≠ [] := fun h1 =>
      hne (List.length_eq_zero.mp (by simpa [h1] using h.length_eq.symm))
    have he₁ : ¬ l₁.isEmpty := fun hc => hne₁ (List.isEmpty_iff.mp hc)
    simp only [weekly_aggregate, if_neg he₁, if_neg he₂]
    have p1 : List.Perm
        (List.insertionSort (· ≤ ·) ((l₁.map fun r => weekOf r.created_dt).dedup))
        ((l₁.map fun r => weekOf r.created_dt).dedup) :=
      List.perm_insertionSort _ _
    have p2 : List.Perm ((l₁.map fun r => weekOf r.created_dt).dedup)
        ((l₂.map fun r => weekOf r.created_dt).dedup) :=
      (h.map _).dedup
    have p3 : List.Perm ((l₂.map fun r => weekOf r.created_dt).dedup)
        (List.insertionSort (· ≤ ·) ((l₂.map fun r => weekOf r.created_dt).dedup)) :=
      (List.perm_insertionSort _ _).symm
    have hweeks : List.insertionSort (· ≤ ·)
          ((l₁.map fun r => weekOf r.created_dt).dedup) =
        List.insertionSort (· ≤ ·) ((l₂.map fun r => weekOf r.created_dt).dedup) :=
      List.eq_of_perm_of_sorted ((p1.trans p2).trans p3)
        (List.sorted_insertionSort _ _) (List.sorted_insertionSort _ _)
    rw [hweeks]
    refine List.map_congr_left ?_
    intro w _
    have hf : List.Perm (l₁.filter fun r => weekOf r.created_dt = w)
        (l₂.filter fun r => weekOf r.created_dt = w) := h.filter _
    simp only [WeeklyRow.mk.injEq, true_and]
    exact ⟨((hf.map PostRecord.id).dedup).length_eq,
      (hf.map PostRecord.score).sum_eq, (hf.map PostRecord.num_comments).sum_eq⟩

/-- A sorted permutation of a strictly-sorted record list is that list:
when creation times are pairwise distinct the ascending arrangement is
unique. -/
theorem eq_of_sorted_perm_strict :
    ∀ (l out : List PostRecord), List.Perm out l →
      List.Pairwise createdLe out →
      List.Pairwise (fun a b : PostRecord => a.created_dt < b.created_dt) l →
      out = l := by
  intro l
  induction l with
  | nil =>
    intro out hperm _ _
    exact List.length_eq_zero.mp (by simpa using hperm.length_eq)
  | cons a l ih =>
    intro out hperm hsout hstrict
    cases out with
    | nil =>
      have := hperm.length_eq
      simp at this
    | cons b out' =>
      rcases List.pairwise_cons.mp hstrict with ⟨halt, hstrict'⟩
      rcases List.pairwise_cons.mp hsout with ⟨hble, hsout'⟩
      have hb : b ∈ a :: l := hperm.mem_iff.mp (List.mem_cons_self b out')
      rcases List.mem_cons.mp hb with rfl | hbl
      · have hperm' : List.Perm out' l := (List.perm_cons b).mp hperm
        rw [ih out' hperm' hsout' hstrict']
      · exfalso
        have ha : a ∈ b :: out' := hperm.mem_iff.mpr (List.mem_cons_self a l)
        have hlt : a.created_dt < b.created_dt := halt b hbl
        rcases List.mem_cons.mp ha with heq | hmem
        · rw [heq] at hlt
          exact lt_irrefl _ hlt
        · exact absurd hlt (not_lt.mpr (hble a hmem))

/-- Counterexample to C9 as stated: a two-record set, deduplicated and
already sorted (its two creation times are tied, which ascending order
allows), for which the swapped arrangement is an equally admissible output
of pandas' unstable default quicksort; re-running the aggregation step on
that admissible outcome returns the swapped list, not the input. -/
theorem aggregateStep_idempotent_counterexample :
    List.Sorted createdLe
      [⟨"a", "t3_a", 100, 100, "s", "t", "", 1, 2, "p", "q", ""⟩,
       ⟨"b", "t3_b", 100, 100, "s", "t", "", 3, 4, "p", "q", ""⟩] ∧
    (([⟨"a", "t3_a", 100, 100, "s", "t", "", 1, 2, "p", "q", ""⟩,
       ⟨"b", "t3_b", 100, 100, "s", "t", "", 3, 4, "p", "q", ""⟩] :
        List PostRecord).map PostRecord.id).Nodup ∧
    IsSortValuesOutput
      [⟨"a", "t3_a", 100, 100, "s", "t", "", 1, 2, "p", "q", ""⟩,
       ⟨"b", "t3_b", 100, 100, "s", "t", "", 3, 4, "p", "q", ""⟩]
      [⟨"b", "t3_b", 100, 100, "s", "t", "", 3, 4, "p", "q", ""⟩,
       ⟨"a", "t3_a", 100, 100, "s", "t", "", 1, 2, "p", "q", ""⟩] ∧
    aggregateStepWith
      [⟨"b", "t3_b", 100, 100, "s", "t", "", 3, 4, "p", "q", ""⟩,
       ⟨"a", "t3_a", 100, 100, "s", "t", "", 1, 2, "p", "q", ""⟩] ≠
      [⟨"a", "t3_a", 100, 100, "s", "t", "", 1, 2, "p", "q", ""⟩,
       ⟨"b", "t3_b", 100, 100, "s", "t", "", 3, 4, "p", "q", ""⟩] :=
  ⟨by decide, by decide, ⟨by decide, by decide⟩, by decide⟩

/-- C9 (amended): on a record set already sorted ascending by creation
time and already deduplicated by identifier, re-running the aggregation
step is a no-op up to the order of rows with tied creation times: every
admissible output of the unstable sort makes the re-run return a
permutation of the input that is again sorted ascending (and, being a
permutation of a deduplicated set, again one row per identifier), the
weekly aggregate built from it equals the input's exactly, and when
creation times are strictly increasing the re-run output is exactly the
input. -/
theorem aggregateStep_idempotent_up_to_ties (l out : List PostRecord)
    (_hs : List.Sorted createdLe l) (hn : (l.map PostRecord.id).Nodup)
    (hout : IsSortValuesOutput l out) :
    List.Perm (aggregateStepWith out) l ∧
    List.Pairwise createdLe (aggregateStepWith out) ∧
    weekly_aggregate (aggregateStepWith out) = weekly_aggregate l ∧
    (List.Pairwise (fun a b : PostRecord => a.created_dt < b.created_dt) l →
      aggregateStepWith out = l) := by
  obtain ⟨hperm, hsort⟩ := hout
  have hnout : (out.map PostRecord.id).Nodup :=
    ((hperm.map PostRecord.id).nodup_iff).mpr hn
  have hagg : aggregateStepWith out = out :=
    dropDupsById_eq_self out [] (by simp) hnout
  rw [hagg]
  exact ⟨hperm, hsort, weekly_aggregate_perm out l hperm,
    fun hstrict => eq_of_sorted_perm_strict l out hperm hsort hstrict⟩

/-- Witness for the amended C9: the identity permutation is an admissible
sort output of a strictly-increasing two-record set, and the re-run is an
exact no-op there. -/
theorem aggregateStep_idempotent_up_to_ties_witness :
    List.Perm (aggregateStepWith
        [⟨"a", "t3_a", 100, 100, "s", "t", "", 1, 2, "p", "q", ""⟩,
         ⟨"b", "t3_b", 200, 200, "s", "t", "", 3, 4, "p", "q", ""⟩])
      [⟨"a", "t3_a", 100, 100, "s", "t", "", 1, 2, "p", "q", ""⟩,
       ⟨"b", "t3_b", 200, 200, "s", "t", "", 3, 4, "p", "q", ""⟩] ∧
    List.Pairwise createdLe (aggregateStepWith
      [⟨"a", "t3_a", 100, 100, "s", "t", "", 1, 2, "p", "q", ""⟩,
       ⟨"b", "t3_b", 200, 200, "s", "t", "", 3, 4, "p", "q", ""⟩]) ∧
    weekly_aggregate (aggregateStepWith
        [⟨"a", "t3_a", 100, 100, "s", "t", "", 1, 2, "p", "q", ""⟩,
         ⟨"b", "t3_b", 200, 200, "s", "t", "", 3, 4, "p", "q", ""⟩]) =
      weekly_aggregate
        [⟨"a", "t3_a", 100, 100, "s", "t", "", 1, 2, "p", "q", ""⟩,
         ⟨"b", "t3_b", 200, 200, "s", "t", "", 3, 4, "p", "q", ""⟩] ∧
    (List.Pairwise (fun a b : PostRecord => a.created_dt < b.created_dt)
        [⟨"a", "t3_a", 100, 100, "s", "t", "", 1, 2, "p", "q", ""⟩,
         ⟨"b", "t3_b", 200, 200, "s", "t", "", 3, 4, "p", "q", ""⟩] →
      aggregateStepWith
          [⟨"a", "t3_a", 100, 100, "s", "t", "", 1, 2, "p", "q", ""⟩,
           ⟨"b", "t3_b", 200, 200, "s", "t", "", 3, 4, "p", "q", ""⟩] =
        [⟨"a", "t3_a", 100, 100, "s", "t", "", 1, 2, "p", "q", ""⟩,
         ⟨"b", "t3_b", 200, 200, "s", "t", "", 3, 4, "p", "q", ""⟩]) :=
  aggregateStep_idempotent_up_to_ties _ _ (by decide) (by decide)
    ⟨by decide, by decide⟩

/-- Every record produced by the extraction loop passed `within_range`. -/
theorem mem_extractChildren_within (query : String) (subreddit : Option String)
    (start_ts end_ts : ℚ) (children : List Child) (r : PostRecord)
    (hr : r ∈ extractChildren query subreddit start_ts end_ts children) :
    within_range r.created_utc start_ts end_ts = true := by
  obtain ⟨c, _, hc⟩ := List.mem_filterMap.mp hr
  revert hc
  cases c.created_utc with
  | none => simp
  | some cu =>
    by_cases hw : within_range cu start_ts end_ts
    · intro hc
      simp only [hw, if_pos, Option.some.injEq] at hc
      rw [← hc]
      exact hw
    · simp [hw]

/-- Every record returned by the paginator passed `within_range`. -/
theorem mem_fetchLoop_within (endpoint : Option String → Option PageData)
    (query : String) (subreddit : Option String) (start_ts end_ts : ℚ) :
    ∀ (fuel : Nat) (cursor : Option String) (r : PostRecord),
      r ∈ (fetchLoop endpoint query subreddit start_ts end_ts fuel cursor).1 →
      within_range r.created_utc start_ts end_ts = true := by
  intro fuel
  induction fuel with
  | zero => intro cursor r hr; simp [fetchLoop] at hr
  | succ fuel ih =>
    intro cursor r hr
    simp only [fetchLoop] at hr
    revert hr
    cases endpoint cursor with
    | none => simp
    | some page =>
      by_cases hc : page.children.isEmpty
      · simp [hc]
      · simp only [hc, Bool.false_eq_true, if_neg, not_false_eq_true]
        cases page.after with
        | none =>
          intro hr
          exact mem_extractChildren_within query subreddit start_ts end_ts
            page.children r hr
        | some nxt =>
          intro hr
          rcases List.mem_append.mp hr with h | h
          · exact mem_extractChildren_within query subreddit start_ts end_ts
              page.children r h
          · exact ih (some nxt) r h

/-- C3 (amended): the window filter is applied to the truncated
(`int()`-converted) creation timestamp: every record in the paginator's
output satisfies `within_range`, i.e. its truncated whole-second creation
time lies inclusively between the start and end bounds (so a record whose
truncated creation time is strictly before the start bound or strictly
after the end bound never appears); and no later stage re-filters by time:
the aggregation step keeps at least one record for every identifier in its
input, whatever the timestamps. -/
theorem fetch_window_filter_truncated :
    (∀ (endpoint : Option String → Option PageData) (query : String)
      (subreddit : Option String) (start_ts end_ts : ℚ) (max_pages : Nat)
      (r : PostRecord),
      r ∈ (fetch_posts_for_query endpoint query subreddit start_ts end_ts
        max_pages).1 →
      start_ts ≤ (pyInt r.created_utc : ℚ) ∧
        (pyInt r.created_utc : ℚ) ≤ end_ts) ∧
    (∀ (l : List PostRecord) (r : PostRecord), r ∈ l →
      ∃ r' ∈ aggregateStep l, r'.id = r.id) := by
  constructor
  · intro endpoint query subreddit start_ts end_ts max_pages r hr
    have := mem_fetchLoop_within endpoint query subreddit start_ts end_ts
      max_pages none r hr
    simpa [within_range] using this
  · intro l r hr
    have hcount : (aggregateStep l).countP (fun x => x.id = r.id) = 1 := by
      rw [(aggregateStep_one_per_id_sorted l).1 r.id,
        if_pos (List.mem_map_of_mem PostRecord.id hr)]
    have hpos : 0 < (aggregateStep l).countP (fun x => x.id = r.id) := by
      rw [hcount]; exact Nat.one_pos
    obtain ⟨x, hx, hxid⟩ := List.countP_pos_iff.mp hpos
    exact ⟨x, hx, by simpa using hxid⟩

/-- Counterexample to C3 as stated: a child whose fractional `created_utc`
`100.5` is strictly after the end bound `100` still appears in the returned
record set, because `within_range` truncates `100.5` to `100` before the
comparison. -/
theorem fetch_window_filter_counterexample :
    ((fetch_posts_for_query
        (fun _ => some ⟨[⟨"a", "t3_a", some (201/2), "sub", "t", "", 1, 2, "/x"⟩],
          none⟩) "q" none 0 100 25).1.map PostRecord.created_utc) = [201/2] ∧
    (100 : ℚ) < 201/2 := by
  constructor
  · norm_num [fetch_posts_for_query, fetchLoop, extractChildren,
      List.filterMap, within_range, pyInt]
  · norm_num

/-- Witness for the amended C3: an in-window record returned by a one-page
endpoint satisfies the truncated-timestamp bounds, and a singleton record
set keeps its identifier through aggregation. -/
theorem fetch_window_filter_truncated_witness :
    ((0 : ℚ) ≤ (pyInt ((⟨"a", "t3_a", 50, pyInt 50, "sub", "t", "", 1, 2,
        "https://www.reddit.com" ++ "/x", "q", ""⟩ : PostRecord).created_utc) : ℚ) ∧
      (pyInt ((⟨"a", "t3_a", 50, pyInt 50, "sub", "t", "", 1, 2,
        "https://www.reddit.com" ++ "/x", "q", ""⟩ : PostRecord).created_utc) : ℚ) ≤ 100) ∧
    ∃ r' ∈ aggregateStep [⟨"a", "t3_a", 50, 50, "s", "t", "", 1, 2, "p", "q", ""⟩],
      r'.id = "a" := by
  constructor
  · refine fetch_window_filter_truncated.1
      (fun _ => some ⟨[⟨"a", "t3_a", some 50, "sub", "t", "", 1, 2, "/x"⟩], none⟩)
      "q" none 0 100 25
      ⟨"a", "t3_a", 50, pyInt 50, "sub", "t", "", 1, 2,
        "https://www.reddit.com" ++ "/x", "q", ""⟩ ?_
    have hw : within_range 50 0 100 = true := by norm_num [within_range, pyInt]
    simp [fetch_posts_for_query, fetchLoop, extractChildren, List.filterMap, hw]
  · exact fetch_window_filter_truncated.2
      [⟨"a", "t3_a", 50, 50, "s", "t", "", 1, 2, "p", "q", ""⟩]
      ⟨"a", "t3_a", 50, 50, "s", "t", "", 1, 2, "p", "q", ""⟩ (by simp)

/-- C5: the weekly aggregate has a row for a calendar week exactly when
some record's creation time falls in that week (so no row is emitted for
an empty week), and each row's `mentions` is the number of distinct
identifiers of that week's records while `score_sum` / `comments_sum` are
the sums of the two engagement counters over that week's records. -/
theorem weekly_aggregate_buckets (l : List PostRecord) :
    (∀ w : ℤ, (∃ row ∈ weekly_aggregate l, row.week = w) ↔
      ∃ r ∈ l, weekOf r.created_dt = w) ∧
    (∀ row ∈ weekly_aggregate l,
      row.mentions =
        (((l.filter fun r => weekOf r.created_dt = row.week).map
          PostRecord.id).dedup).length ∧
      row.score_sum =
        ((l.filter fun r => weekOf r.created_dt = row.week).map
          PostRecord.score).sum ∧
      row.comments_sum =
        ((l.filter fun r => weekOf r.created_dt = row.week).map
          PostRecord.num_comments).sum) := by
  by_cases hl : l.isEmpty
  · have : l = [] := List.isEmpty_iff.mp hl
    subst this
    refine ⟨fun w => ?_, fun row hrow => ?_⟩
    · simp [weekly_aggregate]
    · simp [weekly_aggregate] at hrow
  · constructor
    · intro w
      simp only [weekly_aggregate, if_neg hl]
      constructor
      · rintro ⟨row, hrow, rfl⟩
        obtain ⟨w', hw', rfl⟩ := List.mem_map.mp hrow
        have hmem : w' ∈ (l.map fun r => weekOf r.created_dt).dedup :=
          (List.perm_insertionSort (· ≤ ·) _).mem_iff.mp hw'
        rw [List.mem_dedup] at hmem
        obtain ⟨r, hr, hrw⟩ := List.mem_map.mp hmem
        exact ⟨r, hr, hrw⟩
      · rintro ⟨r, hr, rfl⟩
        have hmem : weekOf r.created_dt ∈
            List.insertionSort (· ≤ ·) ((l.map fun r => weekOf r.created_dt).dedup) :=
          (List.perm_insertionSort (· ≤ ·) _).mem_iff.mpr
            (List.mem_dedup.mpr (List.mem_map_of_mem _ hr))
        exact ⟨_, List.mem_map_of_mem _ hmem, rfl⟩
    · intro row hrow
      simp only [weekly_aggregate, if_neg hl] at hrow
      obtain ⟨w', _, rfl⟩ := List.mem_map.mp hrow
      exact ⟨rfl, rfl, rfl⟩

/-- Witness for C5 at a singleton record set: a row exists for the
record's week, and the emitted row has one mention and the record's
engagement sums. -/
theorem weekly_aggregate_buckets_witness :
    (∃ row ∈ weekly_aggregate
        [⟨"a", "t3_a", 100, 100, "s", "t", "", 1, 2, "p", "q", ""⟩],
      row.week = weekOf 100) ∧
    ((⟨weekOf 100, 1, 1, 2⟩ : WeeklyRow).mentions =
      ((([⟨"a", "t3_a", 100, 100, "s", "t", "", 1, 2, "p", "q", ""⟩] :
          List PostRecord).filter fun r =>
          weekOf r.created_dt = (⟨weekOf 100, 1, 1, 2⟩ : WeeklyRow).week).map
        PostRecord.id).dedup.length ∧
     (⟨weekOf 100, 1, 1, 2⟩ : WeeklyRow).score_sum =
      ((([⟨"a", "t3_a", 100, 100, "s", "t", "", 1, 2, "p", "q", ""⟩] :
          List PostRecord).filter fun r =>
          weekOf r.created_dt = (⟨weekOf 100, 1, 1, 2⟩ : WeeklyRow).week).map
        PostRecord.score).sum ∧
     (⟨weekOf 100, 1, 1, 2⟩ : WeeklyRow).comments_sum =
      ((([⟨"a", "t3_a", 100, 100, "s", "t", "", 1, 2, "p", "q", ""⟩] :
          List PostRecord).filter fun r =>
          weekOf r.created_dt = (⟨weekOf 100, 1, 1, 2⟩ : WeeklyRow).week).map
        PostRecord.num_comments).sum) :=
  ⟨((weekly_aggregate_buckets _).1 (weekOf 100)).mpr
      ⟨⟨"a", "t3_a", 100, 100, "s", "t", "", 1, 2, "p", "q", ""⟩, by simp, rfl⟩,
   (weekly_aggregate_buckets _).2 ⟨weekOf 100, 1, 1, 2⟩ (by decide)⟩

/-- C8: on an empty record set the weekly aggregate is the empty table
rather than an error, and the run tail still completes, writes its (empty)
outputs and flushes every accumulated diagnostic. -/
theorem run_completes_on_empty :
    weekly_aggregate ([] : List PostRecord) = [] ∧
    ∀ errors : List Diag,
      runMainTail [] errors =
        { postsCsv := [], weeklyCsv := [], flushedDiags := errors,
          completed := true } :=
  ⟨rfl, fun _ => rfl⟩

/-- The peak row is one of the rows of the series. -/
theorem peakPoint_mem : ∀ (rest : List TrendPoint) (best : TrendPoint),
    peakPoint best rest ∈ best :: rest := by
  intro rest
  induction rest with
  | nil => intro best; simp [peakPoint]
  | cons p rest ih =>
    intro best
    simp only [peakPoint]
    by_cases hb : best.value < p.value
    · rw [if_pos hb]
      rcases List.mem_cons.mp (ih p) with h | h
      · simp [h]
      · simp [h]
    · rw [if_neg hb]
      rcases List.mem_cons.mp (ih best) with h | h
      · simp [h]
      · simp [h]

/-- The head of a filtered list is dated no later than any member of the
original date-sorted list that satisfies the filter. -/
theorem filter_head_date_le (P : TrendPoint → Bool) :
    ∀ (l : List TrendPoint),
      List.Pairwise (fun a b => a.date ≤ b.date) l →
      ∀ x ∈ l, P x = true →
      ∀ q t, l.filter P = q :: t → q.date ≤ x.date := by
  intro l
  induction l with
  | nil => intro _ x hx; simp at hx
  | cons a l ih =>
    intro hsort x hx hPx q t hfilter
    rcases List.pairwise_cons.mp hsort with ⟨ha, hsort'⟩
    by_cases hPa : P a
    · rw [List.filter_cons_of_pos hPa] at hfilter
      obtain ⟨rfl, -⟩ : a = q ∧ l.filter P = t := by
        constructor <;> [exact (List.cons.injEq .. ▸ hfilter).1;
          exact (List.cons.injEq .. ▸ hfilter).2]
      rcases List.mem_cons.mp hx with rfl | hx'
      · exact le_refl _
      · exact ha x hx'
    · rw [List.filter_cons_of_neg hPa] at hfilter
      rcases List.mem_cons.mp hx with rfl | hx'
      · exact absurd hPx hPa
      · exact ih hsort' x hx' hPx q t hfilter

/-- C10: the search for the half-peak point includes the peak row itself
(`date >= peak_date`), so on a date-sorted series whose global peak value
is at most 0, the peak row already satisfies `value <= half_val` and
`compute_half_life` returns 0 weeks instead of reporting absence. -/
theorem compute_half_life_nonpos_peak (p : TrendPoint) (rest : List TrendPoint)
    (hsort : List.Pairwise (fun a b : TrendPoint => a.date ≤ b.date) (p :: rest))
    (hpeak : (peakPoint p rest).value ≤ 0) :
    compute_half_life (p :: rest) = some 0 := by
  have hmem : peakPoint p rest ∈ p :: rest := peakPoint_mem rest p
  have hhalf : (peakPoint p rest).value ≤ (peakPoint p rest).value / 2 := by
    linarith
  simp only [compute_half_life]
  split
  · rename_i heq
    exfalso
    have hin : peakPoint p rest ∈
        ((p :: rest).filter fun q => decide ((peakPoint p rest).date ≤ q.date)).filter
          fun q => decide (q.value ≤ (peakPoint p rest).value / 2) := by
      refine List.mem_filter.mpr ⟨List.mem_filter.mpr ⟨hmem, ?_⟩, ?_⟩
      · simp
      · simpa using hhalf
    rw [heq] at hin
    simp at hin
  · rename_i q t heq
    have hqmem : q ∈
        ((p :: rest).filter fun qq => decide ((peakPoint p rest).date ≤ qq.date)).filter
          fun qq => decide (qq.value ≤ (peakPoint p rest).value / 2) := by
      rw [heq]
      exact List.mem_cons_self q t
    obtain ⟨hqA, -⟩ := List.mem_filter.mp hqmem
    obtain ⟨-, hP1⟩ := List.mem_filter.mp hqA
    have hge : (peakPoint p rest).date ≤ q.date := by simpa using hP1
    have hsortA : List.Pairwise (fun a b : TrendPoint => a.date ≤ b.date)
        ((p :: rest).filter fun qq => decide ((peakPoint p rest).date ≤ qq.date)) :=
      List.Pairwise.sublist (List.filter_sublist _) hsort
    have hpkA : peakPoint p rest ∈
        (p :: rest).filter fun qq => decide ((peakPoint p rest).date ≤ qq.date) :=
      List.mem_filter.mpr ⟨hmem, by simp⟩
    have hle : q.date ≤ (peakPoint p rest).date :=
      filter_head_date_le _ _ hsortA (peakPoint p rest) hpkA
        (by simpa using hhalf) q t heq
    have hdate : q.date = (peakPoint p rest).date := le_antisymm hle hge
    rw [hdate]
    norm_num [pyRound2, pyRound]

/-- Witness for C10 at an all-zero three-point series. -/
theorem compute_half_life_nonpos_peak_witness :
    compute_half_life [⟨0, 0⟩, ⟨7, 0⟩, ⟨14, 0⟩] = some 0 :=
  compute_half_life_nonpos_peak ⟨0, 0⟩ [⟨7, 0⟩, ⟨14, 0⟩]
    (by decide) (by norm_num [peakPoint])

/-- C6: on the synthetic series peaking at 100 at week 0 and decaying
monotonically to 50 at week 4, `compute_half_life` returns 4 weeks; and in
general the result is absent (`none`) exactly when no row dated at or
after the peak has a value at most half the peak value — in particular a
series that never descends to half its peak yields `none`, not 0 and not
an error. -/
theorem compute_half_life_peak_decay :
    (compute_half_life
      [⟨0, 100⟩, ⟨7, 875/10⟩, ⟨14, 75⟩, ⟨21, 625/10⟩, ⟨28, 50⟩] = some 4) ∧
    ∀ (p : TrendPoint) (rest : List TrendPoint),
      (compute_half_life (p :: rest) = none ↔
        ∀ q ∈ p :: rest, (peakPoint p rest).date ≤ q.date →
          (peakPoint p rest).value / 2 < q.value) := by
  constructor
  · norm_num [compute_half_life, peakPoint, pyRound2, pyRound, List.filter]
  · intro p rest
    simp only [compute_half_life]
    split
    · rename_i heq
      simp only [true_iff]
      rw [List.filter_eq_nil_iff] at heq
      intro q hq hdate
      by_contra hnot
      push_neg at hnot
      exact heq q (List.mem_filter.mpr ⟨hq, by simpa using hdate⟩)
        (by simpa using hnot)
    · rename_i q t heq
      simp only [reduceCtorEq, false_iff, not_forall]
      have hqmem : q ∈
          ((p :: rest).filter fun qq =>
            decide ((peakPoint p rest).date ≤ qq.date)).filter
            fun qq => decide (qq.value ≤ (peakPoint p rest).value / 2) := by
        rw [heq]
        exact List.mem_cons_self q t
      obtain ⟨hqA, hP2⟩ := List.mem_filter.mp hqmem
      obtain ⟨hql, hP1⟩ := List.mem_filter.mp hqA
      exact ⟨q, hql, by simpa using hP1, by simpa using hP2⟩

/-- Witness for C6's general clause: a single-row series (peak 100, never
reaching 50) yields an absent half-life. -/
theorem compute_half_life_peak_decay_witness :
    compute_half_life [⟨0, 100⟩] = none :=
  (compute_half_life_peak_decay.2 ⟨0, 100⟩ []).mpr
    (by intro q hq hdate; simp only [List.mem_singleton] at hq; subst hq
        norm_num [peakPoint])
